import Mathlib

/-
  Verification development for the eBook-summary markdown-subset parser
  (EBookSummaryParser in raw_summary_to_pdf_claude.py).

  Strings are modelled as lists of characters (`List Char`).  Python's
  `str.strip()` with no argument is modelled over the ASCII whitespace
  class (space, tab, newline, carriage return, vertical tab, form feed);
  the inputs relevant here contain no other Unicode whitespace.
  `datetime.now()` formatting is out of scope and is passed in as an
  opaque `dateStr` parameter.  ReportLab flowables are modelled as the
  tagged `Block` type; `Spacer(1, h)` keeps only its height `h`.
-/

/-- Python whitespace class used by `str.strip()` (ASCII part). -/
def isPySpace (c : Char) : Bool :=
  c == ' ' || c == '\t' || c == '\n' || c == '\r' || c == '\x0b' || c == '\x0c'

/-- Model of Python `line.strip()`: drop whitespace from both ends. -/
def pyStrip (s : List Char) : List Char :=
  ((s.dropWhile isPySpace).reverse.dropWhile isPySpace).reverse

/-- Model of Python `text.split('\n')`: the empty text gives one empty line,
and every newline character separates two (possibly empty) lines. -/
def splitLines : List Char → List (List Char)
  | [] => [[]]
  | c :: t =>
    if c == '\n' then [] :: splitLines t
    else
      match splitLines t with
      | [] => [[c]]
      | l :: ls => (c :: l) :: ls

/-- Model of Python `s.startswith(pat)`. -/
def startsWith : List Char → List Char → Bool
  | [], _ => true
  | _ :: _, [] => false
  | p :: ps, c :: cs => p == c && startsWith ps cs

/-- Leftmost occurrence split: `splitFirst pat s = some (pre, suf)` when
`s = pre ++ pat ++ suf` at the leftmost occurrence of `pat`, `none` when
`pat` does not occur in `s`. -/
def splitFirst (pat : List Char) : List Char → Option (List Char × List Char)
  | [] => if startsWith pat [] then some ([], []) else none
  | c :: t =>
    if startsWith pat (c :: t) then some ([], List.drop pat.length (c :: t))
    else
      match splitFirst pat t with
      | some (pre, suf) => some (c :: pre, suf)
      | none => none

/-- Model of Python `pat in s` (substring test). -/
def containsSub (pat s : List Char) : Bool :=
  (splitFirst pat s).isSome

/-- The two-star marker of the bold markdown syntax. -/
def star2 : List Char := ['*', '*']

/-- Opening tag produced by `_process_bold_text`. -/
def bOpen : List Char := ['<', 'b', '>']

/-- Closing tag produced by `_process_bold_text`. -/
def bClose : List Char := ['<', '/', 'b', '>']

/-- One step of the regex scan of `re.sub(r'\*\*(.*?)\*\*', ...)`: the text
before the leftmost `**`, the (possibly empty, non-greedy) span up to the
next `**`, and the remaining text after that closing marker. -/
def boldSplit (s : List Char) : Option (List Char × List Char × List Char) :=
  match splitFirst star2 s with
  | none => none
  | some (pre, rest) =>
    match splitFirst star2 rest with
    | none => none
    | some (span, rest2) => some (pre, span, rest2)

/-- Fuel-indexed recursion of the bold transform; every rewriting step
strictly shortens the remaining text, so `s.length` fuel always suffices
(`processBoldFuel_congr`). -/
def processBoldFuel : Nat → List Char → List Char
  | 0, s => s
  | fuel + 1, s =>
    match boldSplit s with
    | none => s
    | some (pre, span, rest2) => pre ++ bOpen ++ span ++ bClose ++ processBoldFuel fuel rest2

/-- Model of `_process_bold_text`: Python
`re.sub(r'\*\*(.*?)\*\*', r'<b>\1</b>', text)` on newline-free text.
The scan repeatedly finds the leftmost `**`, the nearest closing `**`
after it (non-greedy, so the shortest — possibly empty — span), wraps the
span in `<b>`/`</b>`, and continues after the closing marker; with no
closing marker the text from the failed opener on is left verbatim. -/
def processBold (s : List Char) : List Char :=
  processBoldFuel s.length s

/-- Layout blocks emitted by the parser (the ReportLab flowables appended to
`story`, tagged by the style they are rendered with). `spacer h` models
`Spacer(1, h)` keeping only the height. -/
inductive Block where
  | title (text : List Char)
  | generatedDate (text : List Char)
  | heading1 (text : List Char)
  | heading2 (text : List Char)
  | heading3 (text : List Char)
  | bullet (text : List Char)
  | quote (text : List Char)
  | paragraph (text : List Char)
  | spacer (height : Nat)
deriving DecidableEq

/-- Whether a block is the Title block. -/
def Block.isTitle : Block → Bool
  | .title _ => true
  | _ => false

/-- Whether a block is a heading of some level. -/
def Block.isHeading : Block → Bool
  | .heading1 _ => true
  | .heading2 _ => true
  | .heading3 _ => true
  | _ => false

/-- Parse state carried through the line loop of `process_content`:
the `in_bullet_list` flag and the `current_paragraph` buffer. -/
structure PState where
  inb : Bool
  cur : List (List Char)
deriving DecidableEq

/-- Model of Python `' '.join(current_paragraph)`. -/
def joinSpace (ps : List (List Char)) : List Char :=
  List.intercalate [' '] ps

/-- Flush of the pending paragraph used by the heading/bullet/quote branches
and by the end-of-input step: one `Paragraph` block when the buffer is
non-empty, nothing otherwise (the blank-line branch additionally emits a
spacer and is written out separately in `stepLine`). -/
def flushPar (cur : List (List Char)) : List Block :=
  if cur.isEmpty then [] else [Block.paragraph (joinSpace cur)]

/-- Spec-side description of the quote unwrapping: when the text starts and
ends with a straight double quote, drop the first and last character. -/
def stripPairQ (qt : List Char) : List Char :=
  if startsWith ['"'] qt && (qt.getLast? == some '"') then (qt.drop 1).dropLast else qt

/-- Spec-side description of the quote re-wrapping `'"' + text + '"'`. -/
def wrapQ (s : List Char) : List Char :=
  '"' :: s ++ ['"']

/-- One iteration of the `for line in lines` loop of `process_content`:
the blocks appended to `story` for this line, and the updated state. -/
def stepLine (st : PState) (raw : List Char) : List Block × PState :=
  let line := pyStrip raw
  if line.isEmpty then
    ((if st.cur.isEmpty then [] else [Block.paragraph (joinSpace st.cur), Block.spacer 6]),
     { inb := false, cur := [] })
  else if startsWith ("# BOOK SUMMARY".data) line then
    ([], st)
  else if startsWith ("###".data) line then
    (flushPar st.cur ++ [Block.heading3 (pyStrip (line.drop 3))], { inb := false, cur := [] })
  else if startsWith ("##".data) line then
    (flushPar st.cur ++ [Block.heading2 (pyStrip (line.drop 2))], { inb := false, cur := [] })
  else if startsWith ("#".data) line then
    (flushPar st.cur ++ [Block.heading1 (pyStrip (line.drop 1))], { inb := false, cur := [] })
  else if startsWith ['*'] line || startsWith ['-'] line then
    (flushPar st.cur ++ [Block.bullet ('•' :: ' ' :: processBold (pyStrip (line.drop 1)))],
     { inb := true, cur := [] })
  else if startsWith ['>'] line then
    let qt := pyStrip (line.drop 1)
    let core := if startsWith ['"'] qt && (qt.getLast? == some '"')
                then (qt.drop 1).dropLast else qt
    (flushPar st.cur ++ [Block.quote ('"' :: core ++ ['"'])], { inb := false, cur := [] })
  else
    ((if st.inb then [Block.spacer 6] else []),
     { inb := false, cur := st.cur ++ [processBold line] })

/-- The whole line loop: blocks emitted for all lines, and the final state. -/
def runLines : PState → List (List Char) → List Block × PState
  | st, [] => ([], st)
  | st, l :: ls =>
    let p := stepLine st l
    let q := runLines p.2 ls
    (p.1 ++ q.1, q.2)

/-- Fallback title returned when no qualifying heading line exists. -/
def fallbackTitle : List Char := "eBook Summary".data

/-- The literal pattern of the title regex `r'# BOOK SUMMARY: (.+)'`. -/
def bsColon : List Char := "# BOOK SUMMARY: ".data

/-- Model of `re.search(r'# BOOK SUMMARY: (.+)', line)` on a newline-free
line: scan start positions left to right; at the first position where the
literal matches with a non-empty remainder, return that remainder (the
greedy `(.+)` group, reaching the end of the line). -/
def reSearchBS : List Char → Option (List Char)
  | [] => none
  | c :: t =>
    if startsWith bsColon (c :: t) && !(List.drop bsColon.length (c :: t)).isEmpty then
      some (List.drop bsColon.length (c :: t))
    else reSearchBS t

/-- The line scan of `extract_title`. -/
def extract_titleGo : List (List Char) → List Char
  | [] => fallbackTitle
  | l :: ls =>
    let line := pyStrip l
    if startsWith ("# ".data) line && containsSub ("BOOK SUMMARY".data) line then
      match reSearchBS line with
      | some g => g
      | none => extract_titleGo ls
    else if startsWith ("# ".data) line && line != ("# BOOK SUMMARY".data) then
      pyStrip (line.drop 2)
    else extract_titleGo ls

/-- Model of `EBookSummaryParser.extract_title`. -/
def extract_title (text : List Char) : List Char :=
  extract_titleGo (splitLines text)

/-- Model of `EBookSummaryParser.process_content`, parameterized by the
formatted date string (the `datetime.now()` formatting is external). -/
def process_content (dateStr text : List Char) : List Block :=
  let r := runLines { inb := false, cur := [] } (splitLines text)
  Block.title (extract_title text) :: Block.spacer 20 :: Block.generatedDate dateStr ::
    Block.spacer 30 :: (r.1 ++ flushPar r.2.cur)

/-- Spec-side title candidate of one line, following the amended wording of
the title-extraction claim: a stripped line starting with the primary
heading marker yields, when it contains the substring `BOOK SUMMARY`, the
remainder after the first occurrence of the literal `# BOOK SUMMARY: ` (no
candidate when that literal does not occur), and otherwise the trimmed
remainder after the marker. -/
def titleCandidate (l : List Char) : Option (List Char) :=
  let line := pyStrip l
  if startsWith ("# ".data) line then
    if containsSub ("BOOK SUMMARY".data) line then reSearchBS line
    else some (pyStrip (line.drop 2))
  else none

/-- Spec-side amended title extractor: the first line with a title
candidate decides the title; with no such line the fixed fallback is used. -/
def amendedTitle (text : List Char) : List Char :=
  match (splitLines text).findSome? titleCandidate with
  | some t => t
  | none => fallbackTitle

theorem startsWith_eq_append {pat s : List Char} (h : startsWith pat s = true) :
    s = pat ++ List.drop pat.length s := by
  induction pat generalizing s with
  | nil => simp
  | cons p ps ih =>
    cases s with
    | nil => simp [startsWith] at h
    | cons c cs =>
      simp only [startsWith, Bool.and_eq_true, beq_iff_eq] at h
      obtain ⟨hpc, hrest⟩ := h
      subst hpc
      simpa using ih hrest

theorem splitFirst_eq_append {pat s pre suf : List Char}
    (h : splitFirst pat s = some (pre, suf)) : s = pre ++ pat ++ suf := by
  induction s generalizing pre suf with
  | nil =>
    by_cases hs : startsWith pat [] = true
    · cases pat with
      | nil =>
        simp only [splitFirst, hs, if_pos, Option.some.injEq, Prod.mk.injEq] at h
        simp [← h.1, ← h.2]
      | cons p ps => simp [startsWith] at hs
    · simp [splitFirst, hs] at h
  | cons c t ih =>
    by_cases hs : startsWith pat (c :: t) = true
    · simp only [splitFirst, hs, if_pos, Option.some.injEq, Prod.mk.injEq] at h
      obtain ⟨h1, h2⟩ := h
      subst h1; subst h2
      simpa using startsWith_eq_append hs
    · simp only [splitFirst, hs, if_neg, Bool.false_eq_true, not_false_iff, if_false] at h
      cases hrec : splitFirst pat t with
      | none => rw [hrec] at h; simp at h
      | some pr =>
        rw [hrec] at h
        obtain ⟨pre', suf'⟩ := pr
        simp only [Option.some.injEq, Prod.mk.injEq] at h
        obtain ⟨h1, h2⟩ := h
        subst h2
        have := ih hrec
        simp [← h1, this]

theorem boldSplit_lt {s pre span rest2 : List Char}
    (h : boldSplit s = some (pre, span, rest2)) : rest2.length < s.length := by
  unfold boldSplit at h
  cases h1 : splitFirst star2 s with
  | none => rw [h1] at h; simp at h
  | some pr =>
    rw [h1] at h
    obtain ⟨pre', rest⟩ := pr
    dsimp only at h
    cases h2 : splitFirst star2 rest with
    | none => rw [h2] at h; simp at h
    | some pr2 =>
      rw [h2] at h
      obtain ⟨span', rest2'⟩ := pr2
      dsimp only at h
      simp only [Option.some.injEq, Prod.mk.injEq] at h
      obtain ⟨-, -, h3⟩ := h
      subst h3
      have e1 := splitFirst_eq_append h1
      have e2 := splitFirst_eq_append h2
      subst e1; subst e2
      simp [star2]
      omega

theorem processBoldFuel_nil (m : Nat) : processBoldFuel m [] = [] := by
  cases m <;> rfl

theorem processBoldFuel_congr :
    ∀ (n m : Nat) (s : List Char), s.length ≤ n → s.length ≤ m →
      processBoldFuel n s = processBoldFuel m s := by
  intro n
  induction n with
  | zero =>
    intro m s hn _
    have : s = [] := List.length_eq_zero.mp (Nat.le_zero.mp hn)
    subst this
    rw [processBoldFuel_nil, processBoldFuel_nil]
  | succ n ih =>
    intro m s hn hm
    cases m with
    | zero =>
      have : s = [] := List.length_eq_zero.mp (Nat.le_zero.mp hm)
      subst this
      rw [processBoldFuel_nil, processBoldFuel_nil]
    | succ m' =>
      show processBoldFuel (n + 1) s = processBoldFuel (m' + 1) s
      unfold processBoldFuel
      cases hb : boldSplit s with
      | none => rfl
      | some pr =>
        obtain ⟨pre, span, rest2⟩ := pr
        dsimp only
        have hlt := boldSplit_lt hb
        rw [ih m' rest2 (by omega) (by omega)]

theorem processBoldFuel_succ (n : Nat) (s : List Char) :
    processBoldFuel (n + 1) s =
      match boldSplit s with
      | none => s
      | some (pre, span, rest2) => pre ++ bOpen ++ span ++ bClose ++ processBoldFuel n rest2 :=
  rfl

theorem processBold_of_none {s : List Char} (h : boldSplit s = none) : processBold s = s := by
  show processBoldFuel s.length s = s
  cases hl : s.length with
  | zero => rfl
  | succ n =>
    rw [processBoldFuel_succ, h]

theorem processBold_of_some {s pre span rest2 : List Char}
    (h : boldSplit s = some (pre, span, rest2)) :
    processBold s = pre ++ bOpen ++ span ++ bClose ++ processBold rest2 := by
  have hlt := boldSplit_lt h
  show processBoldFuel s.length s = pre ++ bOpen ++ span ++ bClose ++ processBoldFuel rest2.length rest2
  cases hl : s.length with
  | zero => omega
  | succ n =>
    rw [processBoldFuel_succ, h]
    dsimp only
    rw [processBoldFuel_congr n rest2.length rest2 (by omega) (Nat.le_refl _)]

theorem containsSub_false_iff {pat s : List Char} :
    containsSub pat s = false ↔ splitFirst pat s = none := by
  unfold containsSub
  cases splitFirst pat s <;> simp

theorem containsSub_tail {pat : List Char} {c : Char} {t : List Char}
    (h : containsSub pat (c :: t) = false) : containsSub pat t = false := by
  unfold containsSub at h ⊢
  cases hrec : splitFirst pat t with
  | none => simp
  | some pr =>
    exfalso
    by_cases hs : startsWith pat (c :: t) = true
    · simp [splitFirst, hs] at h
    · simp [splitFirst, hs, hrec] at h

theorem splitFirst_star2_append (x : List Char) :
    ∀ pre : List Char, containsSub star2 (pre ++ ['*']) = false →
    splitFirst star2 (pre ++ (star2 ++ x)) = some (pre, x) := by
  intro pre
  induction pre with
  | nil =>
    intro _
    simp [splitFirst, startsWith, star2]
  | cons c p ih =>
    intro h
    have hT : containsSub star2 (p ++ ['*']) = false := by
      have h' : containsSub star2 (c :: (p ++ ['*'])) = false := by simpa using h
      exact containsSub_tail h'
    have hsw : startsWith star2 (c :: (p ++ (star2 ++ x))) = false := by
      cases hc : (('*' : Char) == c) with
      | false => simp [star2, startsWith, hc]
      | true =>
        have hc' : c = '*' := by
          have := (beq_iff_eq).mp hc
          exact this.symm
        subst hc'
        cases p with
        | nil => simp [containsSub, splitFirst, startsWith, star2] at h
        | cons d p' =>
          cases hd : (('*' : Char) == d) with
          | false => simp [star2, startsWith, hd]
          | true =>
            have hd' : d = '*' := ((beq_iff_eq).mp hd).symm
            subst hd'
            simp [containsSub, splitFirst, startsWith, star2] at h
    have hrec := ih hT
    simp only [List.cons_append, splitFirst, List.append_eq, hsw, Bool.false_eq_true, if_false]
    rw [hrec]

theorem boldSplit_of_marker {pre span rest : List Char}
    (h1 : containsSub star2 (pre ++ ['*']) = false)
    (h2 : containsSub star2 (span ++ ['*']) = false) :
    boldSplit (pre ++ star2 ++ span ++ star2 ++ rest) = some (pre, span, rest) := by
  unfold boldSplit
  have e : pre ++ star2 ++ span ++ star2 ++ rest = pre ++ (star2 ++ (span ++ (star2 ++ rest))) := by
    simp [List.append_assoc]
  rw [e, splitFirst_star2_append (span ++ (star2 ++ rest)) pre h1]
  dsimp only
  rw [splitFirst_star2_append rest span h2]

theorem boldSplit_of_unpaired {pre suf : List Char}
    (h1 : containsSub star2 (pre ++ ['*']) = false)
    (h2 : containsSub star2 suf = false) :
    boldSplit (pre ++ star2 ++ suf) = none := by
  unfold boldSplit
  have e : pre ++ star2 ++ suf = pre ++ (star2 ++ suf) := by simp [List.append_assoc]
  rw [e, splitFirst_star2_append suf pre h1]
  dsimp only
  rw [containsSub_false_iff.mp h2]

theorem extract_titleGo_eq_findSome (ls : List (List Char)) :
    extract_titleGo ls =
      (match ls.findSome? titleCandidate with
       | some t => t
       | none => fallbackTitle) := by
  induction ls with
  | nil => simp [extract_titleGo, List.findSome?]
  | cons l ls ih =>
    by_cases h1 : startsWith ("# ".data) (pyStrip l) = true
    · by_cases h2 : containsSub ("BOOK SUMMARY".data) (pyStrip l) = true
      · cases hr : reSearchBS (pyStrip l) with
        | some g => simp [extract_titleGo, titleCandidate, h1, h2, hr]
        | none => simp [extract_titleGo, titleCandidate, h1, h2, hr, ih]
      · have hne : (pyStrip l != ("# BOOK SUMMARY".data)) = true := by
          have hn : pyStrip l ≠ ("# BOOK SUMMARY".data) := by
            intro he
            rw [he] at h2
            exact h2 (by decide)
          simpa using hn
        simp [extract_titleGo, titleCandidate, h1, h2, hne]
    · simp [extract_titleGo, titleCandidate, h1, ih]

theorem countP_isTitle_flushPar (cur : List (List Char)) :
    (flushPar cur).countP Block.isTitle = 0 := by
  unfold flushPar
  split <;> simp [Block.isTitle]

theorem isTitle_false_of_mem_flushPar {b : Block} {cur : List (List Char)}
    (hb : b ∈ flushPar cur) : Block.isTitle b = false := by
  unfold flushPar at hb
  split at hb
  · simp at hb
  · simp only [List.mem_singleton] at hb
    subst hb
    rfl

theorem stepLine_no_title (st : PState) (raw : List Char) :
    ∀ b ∈ (stepLine st raw).1, Block.isTitle b = false := by
  intro b hb
  unfold stepLine at hb
  by_cases h0 : (pyStrip raw).isEmpty = true
  · rw [if_pos h0] at hb
    dsimp only at hb
    split at hb
    · simp at hb
    · simp only [List.mem_cons, List.not_mem_nil, or_false] at hb
      rcases hb with hb | hb <;> (subst hb; rfl)
  · rw [if_neg h0] at hb
    by_cases h1 : startsWith ("# BOOK SUMMARY".data) (pyStrip raw) = true
    · rw [if_pos h1] at hb
      simp at hb
    · rw [if_neg h1] at hb
      by_cases h2 : startsWith ("###".data) (pyStrip raw) = true
      · rw [if_pos h2] at hb
        dsimp only at hb
        rcases List.mem_append.mp hb with hb | hb
        · exact isTitle_false_of_mem_flushPar hb
        · simp only [List.mem_singleton] at hb; subst hb; rfl
      · rw [if_neg h2] at hb
        by_cases h3 : startsWith ("##".data) (pyStrip raw) = true
        · rw [if_pos h3] at hb
          dsimp only at hb
          rcases List.mem_append.mp hb with hb | hb
          · exact isTitle_false_of_mem_flushPar hb
          · simp only [List.mem_singleton] at hb; subst hb; rfl
        · rw [if_neg h3] at hb
          by_cases h4 : startsWith ("#".data) (pyStrip raw) = true
          · rw [if_pos h4] at hb
            dsimp only at hb
            rcases List.mem_append.mp hb with hb | hb
            · exact isTitle_false_of_mem_flushPar hb
            · simp only [List.mem_singleton] at hb; subst hb; rfl
          · rw [if_neg h4] at hb
            by_cases h5 : (startsWith ['*'] (pyStrip raw) || startsWith ['-'] (pyStrip raw)) = true
            · rw [if_pos h5] at hb
              dsimp only at hb
              rcases List.mem_append.mp hb with hb | hb
              · exact isTitle_false_of_mem_flushPar hb
              · simp only [List.mem_singleton] at hb; subst hb; rfl
            · rw [if_neg h5] at hb
              by_cases h6 : startsWith ['>'] (pyStrip raw) = true
              · rw [if_pos h6] at hb
                dsimp only at hb
                rcases List.mem_append.mp hb with hb | hb
                · exact isTitle_false_of_mem_flushPar hb
                · simp only [List.mem_singleton] at hb; subst hb; rfl
              · rw [if_neg h6] at hb
                dsimp only at hb
                split at hb
                · simp only [List.mem_singleton] at hb; subst hb; rfl
                · simp at hb

theorem countP_isTitle_stepLine (st : PState) (raw : List Char) :
    ((stepLine st raw).1).countP Block.isTitle = 0 := by
  rw [List.countP_eq_zero]
  intro b hb
  simp [stepLine_no_title st raw b hb]

theorem countP_isTitle_runLines (ls : List (List Char)) :
    ∀ st : PState, ((runLines st ls).1).countP Block.isTitle = 0 := by
  induction ls with
  | nil => intro st; simp [runLines]
  | cons l ls ih =>
    intro st
    simp [runLines, List.countP_append, countP_isTitle_stepLine, ih]

/-- Claim C1 (amended): for every input line that is blank after trimming,
the parser flushes the pending paragraph buffer as a `Paragraph` block
followed by a `Spacer` when the buffer is non-empty, and emits nothing when
the buffer is empty; in both cases the `in_bullet_list` flag is cleared and
the buffer ends up empty.  (The claim's further assertion that a `Spacer`
is emitted for every blank line, even with an empty buffer, is refuted by
`c1_counterexample`.) -/
theorem c1_blank_line (st : PState) (raw : List Char) (h : pyStrip raw = []) :
    (st.cur = [] → stepLine st raw = ([], { inb := false, cur := [] })) ∧
    (st.cur ≠ [] →
      stepLine st raw =
        ([Block.paragraph (joinSpace st.cur), Block.spacer 6],
         { inb := false, cur := [] })) := by
  constructor
  · intro hc
    simp [stepLine, h, hc]
  · intro hc
    have hc' : st.cur.isEmpty = false := by
      cases hcur : st.cur with
      | nil => exact absurd hcur hc
      | cons a l => rfl
    simp [stepLine, h, hc']

/-- Witness for C1: a whitespace-only line with a pending one-fragment
buffer flushes the paragraph and a spacer and clears the flag. -/
theorem c1_witness :
    pyStrip [' '] = [] ∧ (⟨true, [['a']]⟩ : PState).cur ≠ [] ∧
    stepLine ⟨true, [['a']]⟩ [' '] =
      ([Block.paragraph ['a'], Block.spacer 6], { inb := false, cur := [] }) := by
  refine ⟨by decide, by decide, ?_⟩
  exact ((c1_blank_line ⟨true, [['a']]⟩ [' '] (by decide)).2 (by decide)).trans (by decide)

/-- Counterexample for C1 as stated: on a blank line met while the
paragraph buffer is empty the code emits no block at all, in particular no
`Spacer`, while the claim demands a `Spacer` for every blank line. -/
theorem c1_counterexample :
    pyStrip [' '] = [] ∧
    (stepLine { inb := false, cur := [] } [' ']).1 = [] ∧
    Block.spacer 6 ∉ (stepLine { inb := false, cur := [] } [' ']).1 := by
  decide

/-- Claim C2 (amended): the title extractor scans stripped lines in order;
the first line starting with the primary marker and containing the
substring `BOOK SUMMARY` returns the remainder after the first occurrence
of the literal `# BOOK SUMMARY: ` when that literal occurs (with no further
trimming of the remainder), and is otherwise skipped; the first
primary-heading line not containing `BOOK SUMMARY` returns its trimmed
remainder after the marker; with no qualifying line the fixed fallback
`eBook Summary` is returned.  `amendedTitle` is the word-for-word
formalization of that description. -/
theorem c2_title (text : List Char) : extract_title text = amendedTitle text := by
  unfold extract_title amendedTitle
  rw [extract_titleGo_eq_findSome]

/-- Counterexample for C2 as stated: `# My BOOK SUMMARY` is a primary-heading
line that is not exactly the bare literal `# BOOK SUMMARY`, so the claim
demands its trimmed remainder `My BOOK SUMMARY`; the code skips it (the
branch for lines containing `BOOK SUMMARY` fails its regex and falls
through to the next line) and returns the fallback instead. -/
theorem c2_counterexample :
    extract_title ("# My BOOK SUMMARY".data) = ("eBook Summary".data) ∧
    ("eBook Summary".data) ≠ ("My BOOK SUMMARY".data) := by
  decide

/-- Claim C3 (amended): the bold transform rewrites every non-overlapping
occurrence of a double-star pair around a shortest (possibly empty,
non-greedy) span into the emphasis form, left to right; text without any
double-star marker, and a lone unpaired double-star marker, are left
verbatim.  (The claim's restriction to non-empty spans is refuted by
`c3_counterexample`: the empty span is matched and replaced too.) -/
theorem c3_bold :
    (∀ s : List Char, containsSub star2 s = false → processBold s = s) ∧
    (∀ pre suf : List Char, containsSub star2 (pre ++ ['*']) = false →
      containsSub star2 suf = false →
      processBold (pre ++ star2 ++ suf) = pre ++ star2 ++ suf) ∧
    (∀ pre span rest : List Char, containsSub star2 (pre ++ ['*']) = false →
      containsSub star2 (span ++ ['*']) = false →
      processBold (pre ++ star2 ++ span ++ star2 ++ rest) =
        pre ++ bOpen ++ span ++ bClose ++ processBold rest) := by
  refine ⟨?_, ?_, ?_⟩
  · intro s h
    exact processBold_of_none (by
      unfold boldSplit
      rw [containsSub_false_iff.mp h])
  · intro pre suf h1 h2
    exact processBold_of_none (boldSplit_of_unpaired h1 h2)
  · intro pre span rest h1 h2
    exact processBold_of_some (boldSplit_of_marker h1 h2)

/-- Witness for C3: one bold occurrence between plain fragments is wrapped
in the emphasis delimiters and the tail is processed recursively. -/
theorem c3_witness :
    containsSub star2 ("a ".data ++ ['*']) = false ∧
    containsSub star2 ("b".data ++ ['*']) = false ∧
    processBold ("a ".data ++ star2 ++ ("b".data) ++ star2 ++ (" c".data)) =
      "a ".data ++ bOpen ++ ("b".data) ++ bClose ++ processBold (" c".data) := by
  refine ⟨by decide, by decide, ?_⟩
  exact c3_bold.2.2 ("a ".data) ("b".data) (" c".data) (by decide) (by decide)

/-- Counterexample for C3 as stated: the claim says no replacement occurs
for an empty span, but four stars in a row are rewritten to an empty
emphasis pair rather than left verbatim. -/
theorem c3_counterexample :
    processBold ("****".data) = ("<b></b>".data) ∧
    ("<b></b>".data) ≠ ("****".data) := by
  decide

/-- Claim C4 (amended): every trimmed line starting with the literal
`# BOOK SUMMARY` — the bare literal itself but also any extension such as
`# BOOK SUMMARY: Title` — is skipped entirely (no block emitted, no
paragraph flush, parse state unchanged); every other line beginning with
`#` is classified as a heading line (of level 1, 2 or 3) after flushing the
pending paragraph.  (The claim's restriction of the suppression to exactly
the bare literal is refuted by `c4_counterexample`.) -/
theorem c4_suppression :
    (∀ (st : PState) (raw : List Char),
      startsWith ("# BOOK SUMMARY".data) (pyStrip raw) = true →
      stepLine st raw = ([], st)) ∧
    (∀ (st : PState) (raw : List Char) (t : List Char), pyStrip raw = '#' :: t →
      startsWith ("# BOOK SUMMARY".data) (pyStrip raw) = false →
      ∃ b : Block, b.isHeading = true ∧
        stepLine st raw = (flushPar st.cur ++ [b], { inb := false, cur := [] })) := by
  constructor
  · intro st raw h
    cases hline : pyStrip raw with
    | nil => rw [hline] at h; simp [startsWith] at h
    | cons c t =>
      rw [hline] at h
      simp [stepLine, hline, h]
  · intro st raw t hline hskip
    rw [hline] at hskip
    cases t with
    | nil =>
      exact ⟨Block.heading1 (pyStrip []), rfl, by simp [stepLine, hline, startsWith]⟩
    | cons d t2 =>
      cases hd : (('#' : Char) == d) with
      | false =>
        refine ⟨Block.heading1 (pyStrip (d :: t2)), rfl, ?_⟩
        simp [stepLine, hline, startsWith, hd, hskip]
      | true =>
        have hd' : d = '#' := (beq_iff_eq.mp hd).symm
        subst hd'
        cases t2 with
        | nil =>
          exact ⟨Block.heading2 (pyStrip []), rfl, by simp [stepLine, hline, startsWith]⟩
        | cons e t3 =>
          cases he : (('#' : Char) == e) with
          | true =>
            have he' : e = '#' := (beq_iff_eq.mp he).symm
            subst he'
            exact ⟨Block.heading3 (pyStrip t3), rfl, by simp [stepLine, hline, startsWith]⟩
          | false =>
            refine ⟨Block.heading2 (pyStrip (e :: t3)), rfl, ?_⟩
            simp [stepLine, hline, startsWith, he]

/-- Witness for C4: the bare literal line is skipped with the state kept. -/
theorem c4_witness :
    startsWith ("# BOOK SUMMARY".data) (pyStrip ("# BOOK SUMMARY".data)) = true ∧
    stepLine ⟨false, [['x']]⟩ ("# BOOK SUMMARY".data) = ([], ⟨false, [['x']]⟩) := by
  refine ⟨by decide, ?_⟩
  exact c4_suppression.1 ⟨false, [['x']]⟩ ("# BOOK SUMMARY".data) (by decide)

/-- Counterexample for C4 as stated: `# BOOK SUMMARY: Title` is not the
exact bare literal, so the claim requires it to be classified as a heading
line; the code skips it entirely and emits no block. -/
theorem c4_counterexample :
    stepLine { inb := false, cur := [] } ("# BOOK SUMMARY: Title".data) =
      ([], { inb := false, cur := [] }) ∧
    ("# BOOK SUMMARY: Title".data) ≠ ("# BOOK SUMMARY".data) ∧
    ([] : List Block) ≠ [Block.heading1 ("BOOK SUMMARY: Title".data)] := by
  decide

/-- Claim C5 (confirmed): every document's block sequence starts with
`Title(extracted title)`, a `Spacer`, `GeneratedDate(formatted date)` and a
`Spacer`, before any content block; exactly one `Title` block occurs in the
whole output; the empty document yields exactly those four blocks. -/
theorem c5_preamble (dateStr text : List Char) :
    (process_content dateStr text).take 4 =
      [Block.title (extract_title text), Block.spacer 20, Block.generatedDate dateStr,
       Block.spacer 30] ∧
    (process_content dateStr text).countP Block.isTitle = 1 ∧
    process_content dateStr [] =
      [Block.title fallbackTitle, Block.spacer 20, Block.generatedDate dateStr,
       Block.spacer 30] := by
  refine ⟨?_, ?_, ?_⟩
  · simp [process_content]
  · simp [process_content, List.countP_cons, List.countP_append, Block.isTitle,
      countP_isTitle_runLines, countP_isTitle_flushPar]
  · rfl

/-- Claim C6 (amended): a trimmed line starting with `>` flushes the
pending paragraph and emits a `Quote` block whose text is the marker-free
trimmed remainder, with its outer characters dropped when the remainder
both starts and ends with a straight double quote (a single `"` character
satisfies that test and becomes empty), re-wrapped in straight double
quotes; the `in_bullet_list` flag is cleared.  (The claim's phrasing of the
strip condition as a matching pair is refuted on the one-character
remainder by `c6_counterexample`.) -/
theorem c6_quote (st : PState) (raw t : List Char) (h : pyStrip raw = '>' :: t) :
    stepLine st raw =
      (flushPar st.cur ++ [Block.quote (wrapQ (stripPairQ (pyStrip t)))],
       { inb := false, cur := [] }) := by
  simp [stepLine, h, startsWith, wrapQ, stripPairQ]

/-- Witness for C6: the spec's own example, a quote line whose text is
already quoted, yields exactly that text with no doubled quotes. -/
theorem c6_witness :
    pyStrip ("> \"Already quoted.\"".data) = '>' :: (" \"Already quoted.\"".data) ∧
    stepLine { inb := false, cur := [] } ("> \"Already quoted.\"".data) =
      ([Block.quote ("\"Already quoted.\"".data)], { inb := false, cur := [] }) := by
  refine ⟨by decide, ?_⟩
  exact (c6_quote { inb := false, cur := [] } ("> \"Already quoted.\"".data)
    (" \"Already quoted.\"".data) (by decide)).trans (by decide)

/-- Counterexample for C6 as stated: on the line whose remainder is the
single character `"` — which is not wrapped in a matching pair of quotes —
the claim predicts the text kept verbatim and re-wrapped (three quote
characters); the code strips the lone character from both ends and emits
two quote characters. -/
theorem c6_counterexample :
    stepLine { inb := false, cur := [] } ("> \"".data) =
      ([Block.quote ['"', '"']], { inb := false, cur := [] }) ∧
    (['"', '"'] : List Char) ≠ ['"', '"', '"'] := by
  decide

/-- Claim C7 (amended): heading classification tests `###` before `##`
before `#`: a trimmed line starting with `###` always emits `Heading3` with
the trimmed remainder after the marker; a line starting with `##` but not
`###` emits `Heading2`; a line starting with `#` but not `##` emits
`Heading1` — except for lines starting with the literal `# BOOK SUMMARY`,
which are suppressed (see the suppression claim) and emit nothing.
(The unrestricted `Heading1` clause of the claim is refuted by
`c7_counterexample`.) -/
theorem c7_heading_order :
    (∀ (st : PState) (raw t : List Char), pyStrip raw = '#' :: '#' :: '#' :: t →
      stepLine st raw =
        (flushPar st.cur ++ [Block.heading3 (pyStrip t)], { inb := false, cur := [] })) ∧
    (∀ (st : PState) (raw t : List Char), pyStrip raw = '#' :: '#' :: t →
      t.head? ≠ some '#' →
      stepLine st raw =
        (flushPar st.cur ++ [Block.heading2 (pyStrip t)], { inb := false, cur := [] })) ∧
    (∀ (st : PState) (raw t : List Char), pyStrip raw = '#' :: t →
      t.head? ≠ some '#' →
      startsWith (" BOOK SUMMARY".data) t = false →
      stepLine st raw =
        (flushPar st.cur ++ [Block.heading1 (pyStrip t)], { inb := false, cur := [] })) := by
  refine ⟨?_, ?_, ?_⟩
  · intro st raw t h
    simp [stepLine, h, startsWith]
  · intro st raw t h hhd
    cases t with
    | nil => simp [stepLine, h, startsWith]
    | cons e t' =>
      have he : (('#' : Char) == e) = false := by
        have hne : e ≠ '#' := by
          intro he'
          exact hhd (by simp [he'])
        exact beq_eq_false_iff_ne.mpr (Ne.symm hne)
      simp [stepLine, h, startsWith, he]
  · intro st raw t h hhd hbs
    cases t with
    | nil => simp [stepLine, h, startsWith]
    | cons e t' =>
      have he : (('#' : Char) == e) = false := by
        have hne : e ≠ '#' := by
          intro he'
          exact hhd (by simp [he'])
        exact beq_eq_false_iff_ne.mpr (Ne.symm hne)
      simp [stepLine, h, startsWith, he]
      intro hsp
      subst hsp
      simpa [startsWith] using hbs

/-- Witness for C7: the spec's example lines `### X`, `## X`, `# X` produce
`Heading3`, `Heading2` and `Heading1` respectively, each with text `X`. -/
theorem c7_witness :
    (pyStrip ("### X".data) = '#' :: '#' :: '#' :: (" X".data) ∧
      stepLine { inb := false, cur := [] } ("### X".data) =
        ([Block.heading3 ['X']], { inb := false, cur := [] })) ∧
    (pyStrip ("## X".data) = '#' :: '#' :: (" X".data) ∧
      stepLine { inb := false, cur := [] } ("## X".data) =
        ([Block.heading2 ['X']], { inb := false, cur := [] })) ∧
    (pyStrip ("# X".data) = '#' :: (" X".data) ∧
      stepLine { inb := false, cur := [] } ("# X".data) =
        ([Block.heading1 ['X']], { inb := false, cur := [] })) := by
  refine ⟨⟨by decide, ?_⟩, ⟨by decide, ?_⟩, ⟨by decide, ?_⟩⟩
  · exact (c7_heading_order.1 { inb := false, cur := [] } ("### X".data) (" X".data)
      (by decide)).trans (by decide)
  · exact (c7_heading_order.2.1 { inb := false, cur := [] } ("## X".data) (" X".data)
      (by decide) (by decide)).trans (by decide)
  · exact (c7_heading_order.2.2 { inb := false, cur := [] } ("# X".data) (" X".data)
      (by decide) (by decide) (by decide)).trans (by decide)

/-- Counterexample for C7 as stated: `# BOOK SUMMARY notes` starts with `#`
and not with `##`, so the claim requires a `Heading1` block; the code
suppresses the line and emits nothing. -/
theorem c7_counterexample :
    pyStrip ("# BOOK SUMMARY notes".data) = '#' :: (" BOOK SUMMARY notes".data) ∧
    stepLine { inb := false, cur := [] } ("# BOOK SUMMARY notes".data) =
      ([], { inb := false, cur := [] }) ∧
    ([] : List Block) ≠ [Block.heading1 ("BOOK SUMMARY notes".data)] := by
  decide

/-- Claim C8 (confirmed): a trimmed line starting with `*` or `-` flushes
the pending paragraph, strips exactly the one marker character, trims the
remainder, applies the bold-emphasis transform, and emits a `Bullet` block
whose text is the bullet glyph and a space prepended to the transformed
text, setting the `in_bullet_list` state. -/
theorem c8_bullet (st : PState) (raw t : List Char)
    (h : pyStrip raw = '*' :: t ∨ pyStrip raw = '-' :: t) :
    stepLine st raw =
      (flushPar st.cur ++ [Block.bullet ('•' :: ' ' :: processBold (pyStrip t))],
       { inb := true, cur := [] }) := by
  rcases h with h | h <;> simp [stepLine, h, startsWith]

/-- Witness for C8: the spec's example `* **Key:** value` yields a bullet
whose text has the bullet-and-space prefix and the emphasis-wrapped form of
`Key:` followed by ` value`. -/
theorem c8_witness :
    (pyStrip ("* **Key:** value".data) = '*' :: (" **Key:** value".data) ∨
      pyStrip ("* **Key:** value".data) = '-' :: (" **Key:** value".data)) ∧
    stepLine { inb := false, cur := [] } ("* **Key:** value".data) =
      ([Block.bullet ("• <b>Key:</b> value".data)], { inb := true, cur := [] }) := by
  refine ⟨Or.inl (by decide), ?_⟩
  exact (c8_bullet { inb := false, cur := [] } ("* **Key:** value".data)
    (" **Key:** value".data) (Or.inl (by decide))).trans (by decide)

/-- Claim C9 (confirmed): when processing the last line leaves the pending
paragraph buffer non-empty, the buffer is flushed as one final `Paragraph`
block — space-joined — which is the very last block of the output, with no
trailing `Spacer` after it; the buffer is never dropped. -/
theorem c9_final_flush (dateStr text : List Char)
    (h : (runLines { inb := false, cur := [] } (splitLines text)).2.cur ≠ []) :
    (process_content dateStr text).getLast? =
      some (Block.paragraph
        (joinSpace (runLines { inb := false, cur := [] } (splitLines text)).2.cur)) := by
  unfold process_content
  have hne : ((runLines { inb := false, cur := [] } (splitLines text)).2.cur).isEmpty = false := by
    cases hcur : (runLines { inb := false, cur := [] } (splitLines text)).2.cur with
    | nil => exact absurd hcur h
    | cons a l => rfl
  simp only [flushPar, hne, Bool.false_eq_true, if_false]
  simp only [← List.cons_append, ← List.append_assoc]
  rw [List.getLast?_concat]

/-- Witness for C9: a document consisting of the single non-blank line
`Hi` ends with exactly that paragraph block. -/
theorem c9_witness :
    (runLines { inb := false, cur := [] } (splitLines ("Hi".data))).2.cur ≠ [] ∧
    (process_content ['D'] ("Hi".data)).getLast? = some (Block.paragraph ("Hi".data)) := by
  refine ⟨by decide, ?_⟩
  exact (c9_final_flush ['D'] ("Hi".data) (by decide)).trans (by decide)

/-- Claim C10 (confirmed): the parser is total — it is a plain function
from text to a block sequence, defined for every input (first conjunct) —
and every trimmed non-blank line that matches no structural marker
(`#`, `*`, `-`, `>`) is treated as paragraph text: it is bold-transformed
and appended to the pending paragraph buffer, with only the after-bullet
spacer possibly emitted. -/
theorem c10_total :
    (∀ dateStr text : List Char, ∃ bs : List Block, process_content dateStr text = bs) ∧
    (∀ (st : PState) (raw : List Char) (c : Char) (t : List Char),
      pyStrip raw = c :: t → c ≠ '#' → c ≠ '*' → c ≠ '-' → c ≠ '>' →
      stepLine st raw =
        ((if st.inb then [Block.spacer 6] else []),
         { inb := false, cur := st.cur ++ [processBold (pyStrip raw)] })) := by
  constructor
  · intro dateStr text
    exact ⟨_, rfl⟩
  · intro st raw c t h h1 h2 h3 h4
    have e1 : (('#' : Char) == c) = false := beq_eq_false_iff_ne.mpr (Ne.symm h1)
    have e2 : (('*' : Char) == c) = false := beq_eq_false_iff_ne.mpr (Ne.symm h2)
    have e3 : (('-' : Char) == c) = false := beq_eq_false_iff_ne.mpr (Ne.symm h3)
    have e4 : (('>' : Char) == c) = false := beq_eq_false_iff_ne.mpr (Ne.symm h4)
    simp [stepLine, h, startsWith, e1, e2, e3, e4]

/-- Witness for C10: a plain text line while in a bullet list emits the
after-list spacer and is appended, bold-transformed, to the buffer. -/
theorem c10_witness :
    pyStrip ("plain **x** text".data) = 'p' :: ("lain **x** text".data) ∧
    stepLine { inb := true, cur := [] } ("plain **x** text".data) =
      ([Block.spacer 6], { inb := false, cur := [("plain <b>x</b> text".data)] }) := by
  refine ⟨by decide, ?_⟩
  exact (c10_total.2 { inb := true, cur := [] } ("plain **x** text".data) 'p'
    ("lain **x** text".data) (by decide) (by decide) (by decide) (by decide)
    (by decide)).trans (by decide)
